import Mathlib

/-!
# Verification of the fenris finite element assembly core

A shallow embedding, in Lean 4, of the parts of the fenris finite element
library relevant to a collection of claims about its specification:

* the default batched contraction
  `EllipticContraction::accumulate_contractions_into`
  (src/assembly/operators.rs),
* the VTK connectivity export for 27-node hexahedra (src/vtk.rs),
* models, written from the specification, of components whose sources are
  not part of the sampled code (reference element bases, closest point
  projection for linear triangles, element diameter, quadrature table
  lookup).

Scalars are modelled by the rational numbers: the Rust code is generic over
a `RealField` scalar type and performs only field operations and
comparisons, so every algebraic identity proved here is an identity of the
underlying algorithm.  Panics (assertion failures) are modelled by
returning `Option.none`.
-/

/-! ## Dynamically sized matrices

`DMat` models a mutable dynamically sized matrix slice (nalgebra
`DMatrixSliceMut`): a number of rows and columns together with an entry
function.  Entries outside the `nrows × ncols` range are never read or
written by the modelled code. -/

structure DMat where
  nrows : Nat
  ncols : Nat
  entry : Nat → Nat → ℚ

/-- The stacked `d`-vector `a_I` stored at block index `I` inside `a`
(`a.rows_generic(d * I, GeometryDim::name())` in the source). -/
def stackedBlock (d : Nat) (a : List ℚ) (I : Nat) : Fin d → ℚ :=
  fun k => a.getD (d * I + k) 0

/-- One iteration of the inner loop of the default
`accumulate_contractions_into`: the `(IJ.1, IJ.2)` block of the output
receives `C_IJ ← C_IJ + contract(gradient, a_I, b_J) * alpha`.

The contraction operator is abstracted by a function
`contract : G → P → (Fin d → ℚ) → (Fin d → ℚ) → Nat → Nat → ℚ`, mapping a
gradient (of opaque type `G`), operator parameters (opaque type `P`) and
two `d`-vectors to the entry function of the `s × s` contraction matrix. -/
def accumBlock {G P : Type} (d s : Nat)
    (contract : G → P → (Fin d → ℚ) → (Fin d → ℚ) → Nat → Nat → ℚ)
    (gradient : G) (parameters : P) (alpha : ℚ) (a b : List ℚ)
    (out : DMat) (IJ : Nat × Nat) : DMat where
  nrows := out.nrows
  ncols := out.ncols
  entry := fun r c =>
    if s * IJ.1 ≤ r ∧ r < s * IJ.1 + s ∧ s * IJ.2 ≤ c ∧ c < s * IJ.2 + s then
      out.entry r c +
        contract gradient parameters (stackedBlock d a IJ.1) (stackedBlock d b IJ.2)
          (r - s * IJ.1) (c - s * IJ.2) * alpha
    else out.entry r c

/-- The sequence of `(I, J)` index pairs visited by the double loop of the
default `accumulate_contractions_into`: the outer loop runs over the column
block index `J`, the inner loop over the row block index `I`
(`for J in 0..N { for I in 0..M { ... } }` in the source). -/
def contractionPairs (M N : Nat) : List (Nat × Nat) :=
  (List.range N).flatMap fun J => (List.range M).map fun I => (I, J)

/-- The default implementation of
`EllipticContraction::accumulate_contractions_into`
(src/assembly/operators.rs, lines 115-161).

`d` is `GeometryDim::dim()` and `s` is `SolutionDim::dim()`.  The four
`assert_eq!` statements of the source (divisibility of `a.len()` and
`b.len()` by `d`, and consistency of the output dimensions with
`s * M` and `s * N`) are modelled by returning `none`; so is the division
by zero that `a.len() % d` raises in Rust when `d = 0`. -/
def accumulate_contractions_into {G P : Type} (d s : Nat)
    (contract : G → P → (Fin d → ℚ) → (Fin d → ℚ) → Nat → Nat → ℚ)
    (output : DMat) (alpha : ℚ) (gradient : G) (a b : List ℚ)
    (parameters : P) : Option DMat :=
  if d = 0 then none
  else if a.length % d ≠ 0 then none
  else if b.length % d ≠ 0 then none
  else
    let M := a.length / d
    let N := b.length / d
    if output.nrows ≠ s * M then none
    else if output.ncols ≠ s * N then none
    else some ((contractionPairs M N).foldl
      (accumBlock d s contract gradient parameters alpha a b) output)

/-- The total contribution that a single successful call of
`accumulate_contractions_into` adds to entry `(r, c)` of the output.  It is
determined by `(alpha, gradient, a, b, parameters)` alone (together with
the dimensions `d`, `s`), independently of the previous output content. -/
def contributionEntry {G P : Type} (d s : Nat)
    (contract : G → P → (Fin d → ℚ) → (Fin d → ℚ) → Nat → Nat → ℚ)
    (gradient : G) (parameters : P) (alpha : ℚ) (a b : List ℚ)
    (r c : Nat) : ℚ :=
  if r < s * (a.length / d) ∧ c < s * (b.length / d) then
    contract gradient parameters (stackedBlock d a (r / s)) (stackedBlock d b (c / s))
      (r % s) (c % s) * alpha
  else 0

/-! ### Concrete instances used by witnesses -/

/-- A concrete contraction operator with `d = 2`, `s = 1`: the dot-product
(Laplace-type) contraction.  Used to exercise the theorems below on
concrete inputs. -/
def dotContract : Unit → Unit → (Fin 2 → ℚ) → (Fin 2 → ℚ) → Nat → Nat → ℚ :=
  fun _ _ a b _ _ => a 0 * b 0 + a 1 * b 1

/-- A concrete `nrows × ncols` matrix filled with a constant value. -/
def constMat (nrows ncols : Nat) (v : ℚ) : DMat :=
  ⟨nrows, ncols, fun _ _ => v⟩

/-- The result of one concrete successful batched contraction
(`d = 2`, `s = 1`, `alpha = 2`, `a = [1, 2]`, `b = [3, 4]`, previous
output content `5`). -/
def wRes1 : DMat :=
  (contractionPairs 1 1).foldl (accumBlock 2 1 dotContract () () 2 [1, 2] [3, 4])
    (constMat 1 1 5)

/-- The result of a second concrete batched contraction accumulated on top
of `wRes1` (`alpha = 3`, same direction vectors). -/
def wRes2 : DMat :=
  (contractionPairs 1 1).foldl (accumBlock 2 1 dotContract () () 3 [1, 2] [3, 4])
    wRes1

/-! ## VTK cell connectivity (src/vtk.rs) -/

/-- The VTK cell types used by the fenris VTK export (from the external
vtkio crate; only the variants used in src/vtk.rs are modelled). -/
inductive CellType where
  | Line
  | Triangle
  | QuadraticTriangle
  | Quad
  | QuadraticQuad
  | Tetra
  | QuadraticTetra
  | Hexahedron
  | QuadraticHexahedron
deriving DecidableEq

/-- A 27-node hexahedron connectivity: 27 global vertex indices (8 corner
nodes, 12 edge nodes, 6 face-center nodes and 1 body-center node). -/
structure Hex27Connectivity where
  vertex_indices : Fin 27 → Nat

/-- `VtkCellConnectivity::num_nodes` for `Hex27Connectivity`
(src/vtk.rs line 125-127): the impl overrides the trait default (which
would return `vertex_indices().len() = 27`) and returns 20. -/
def Hex27Connectivity.num_nodes (_ : Hex27Connectivity) : Nat := 20

/-- `VtkCellConnectivity::cell_type` for `Hex27Connectivity`
(src/vtk.rs lines 129-132): legacy VTK has no tri-quadratic hexahedron, so
the quadratic (20-node) hexahedron cell type is used instead. -/
def Hex27Connectivity.cell_type (_ : Hex27Connectivity) : CellType :=
  CellType.QuadraticHexahedron

/-- The fixed index ordering written by `write_vtk_connectivity` for
`Hex27Connectivity` (src/vtk.rs lines 134-153): entries `0..8` are
`v[0..8]`, and the remaining twelve entries are
`v[8], v[11], v[13], v[9], v[16], v[18], v[19], v[17], v[10], v[12],
v[14], v[15]`. -/
def hex27VtkOrder : List (Fin 27) :=
  [0, 1, 2, 3, 4, 5, 6, 7, 8, 11, 13, 9, 16, 18, 19, 17, 10, 12, 14, 15]

/-- `VtkCellConnectivity::write_vtk_connectivity` for `Hex27Connectivity`:
the output buffer (asserted to have length `num_nodes = 20`) is filled
with a fixed reordering of the first twenty vertex indices. -/
def Hex27Connectivity.write_vtk_connectivity (c : Hex27Connectivity) :
    List Nat :=
  hex27VtkOrder.map fun i => c.vertex_indices i

/-! ## Quadrature table lookup (fenris-quadrature) -/

/-- The error value returned when no quadrature rule of sufficient
strength exists (fenris-quadrature/src/polyquad.rs, line 15). -/
structure StrengthNotAvailable where

/-- A tabulated quadrature rule: the polynomial strength it integrates
exactly, together with its sequence of (weight, reference point) pairs. -/
structure TabulatedRule where
  strength : Nat
  points : List (ℚ × List ℚ)

/-- Modelled from the spec: the quadrature-table lookup for one element
shape.  The tables of precomputed rules are generated into
fenris-quadrature by its build script and are absent from the sampled
sources; per the spec the lookup maps a requested polynomial strength to a
sequence of (weight, reference point) pairs, and fails with the explicit
recoverable signal `StrengthNotAvailable` if no rule exists at or above
the requested strength for the shape. -/
def lookupQuadratureRule (table : List TabulatedRule) (requested : Nat) :
    Except StrengthNotAvailable TabulatedRule :=
  match table.find? (fun rule => requested ≤ rule.strength) with
  | some rule => Except.ok rule
  | none => Except.error ⟨⟩

/-- A concrete quadrature table used by the witness below: a strength-1
rule and a strength-3 rule. -/
def wQuadTable : List TabulatedRule :=
  [⟨1, [(2, [0, 0])]⟩, ⟨3, [(1, [0, 0]), (1, [1, 0])]⟩]

/-! ## Plane geometry over ℚ (spec models for the linear triangle element)

The element code of the repository (crate::element) is not among the
sampled sources; the definitions below model, from the specification, the
isoparametric map, the diameter and the closest point projection of the
3-node linear triangle element `Tri3d2Element`.  Points and vectors in the
plane are pairs of rationals with componentwise operations. -/

/-- Componentwise sum of plane vectors. -/
def padd (u v : ℚ × ℚ) : ℚ × ℚ := (u.1 + v.1, u.2 + v.2)

/-- Componentwise difference of plane vectors. -/
def psub (u v : ℚ × ℚ) : ℚ × ℚ := (u.1 - v.1, u.2 - v.2)

/-- Scalar multiple of a plane vector. -/
def psmul (c : ℚ) (u : ℚ × ℚ) : ℚ × ℚ := (c * u.1, c * u.2)

/-- Dot product in the plane. -/
def dot2 (u v : ℚ × ℚ) : ℚ := u.1 * v.1 + u.2 * v.2

/-- Signed area form (z-component of the cross product) in the plane. -/
def cross2 (u v : ℚ × ℚ) : ℚ := u.1 * v.2 - u.2 * v.1

/-- Squared euclidean distance in the plane. -/
def sqDist2 (u v : ℚ × ℚ) : ℚ := dot2 (psub u v) (psub u v)

/-- A 3-node linear triangle element: three physical vertices.  Degenerate
elements (collinear or coincident vertices) are permitted. -/
structure Tri2 where
  a0 : ℚ × ℚ
  a1 : ℚ × ℚ
  a2 : ℚ × ℚ

/-- Modelled from the spec: the isoparametric map of `Tri3d2Element` from
the reference triangle with corners (-1,-1), (1,-1), (-1,1) to the
physical element — the weighted sum of the physical vertices by the linear
basis values at the reference point. -/
def triMap (T : Tri2) (xi : ℚ × ℚ) : ℚ × ℚ :=
  padd (padd T.a0 (psmul ((xi.1 + 1) / 2) (psub T.a1 T.a0)))
    (psmul ((xi.2 + 1) / 2) (psub T.a2 T.a0))

/-- The reference domain of the triangle elements:
`-1 ≤ x`, `-1 ≤ y`, `x + y ≤ 0`. -/
def inRefTri (xi : ℚ × ℚ) : Prop :=
  -1 ≤ xi.1 ∧ -1 ≤ xi.2 ∧ xi.1 + xi.2 ≤ 0

instance (xi : ℚ × ℚ) : Decidable (inRefTri xi) := by
  unfold inRefTri
  infer_instance

/-- The corners of the reference triangle. -/
def refVert : Fin 3 → ℚ × ℚ
  | 0 => (-1, -1)
  | 1 => (1, -1)
  | 2 => (-1, 1)

/-- The physical vertices of a triangle element, indexed. -/
def triVert (T : Tri2) : Fin 3 → ℚ × ℚ
  | 0 => T.a0
  | 1 => T.a1
  | 2 => T.a2

/-- Membership of a point on the segment from `A` to `B`. -/
def onSeg (A B x : ℚ × ℚ) : Prop :=
  ∃ t : ℚ, 0 ≤ t ∧ t ≤ 1 ∧ x = padd A (psmul t (psub B A))

/-- Clamp a segment parameter to the unit interval. -/
def clamp01 (t : ℚ) : ℚ := max 0 (min 1 t)

/-- The parameter of the closest point to `x` on the physical segment from
`A` to `B` (the minimizer of the squared distance over the segment); for a
collapsed segment, the parameter of the point `A`. -/
def segClosestParam (A B x : ℚ × ℚ) : ℚ :=
  if dot2 (psub B A) (psub B A) = 0 then 0
  else clamp01 (dot2 (psub x A) (psub B A) / dot2 (psub B A) (psub B A))

/-- The reference coordinate of the closest point to `x` on the edge
`(e.1, e.2)` of the element. -/
def edgeCandidate (T : Tri2) (x : ℚ × ℚ) (e : Fin 3 × Fin 3) : ℚ × ℚ :=
  padd (refVert e.1)
    (psmul (segClosestParam (triVert T e.1) (triVert T e.2) x)
      (psub (refVert e.2) (refVert e.1)))

/-- Of two candidate reference coordinates, the one whose physical image
is closer to `x` (the first on ties). -/
def pickCloser (T : Tri2) (x u v : ℚ × ℚ) : ℚ × ℚ :=
  if sqDist2 (triMap T v) x < sqDist2 (triMap T u) x then v else u

/-- Modelled from the spec: projection of `x` onto the element boundary —
the best of the closest points on the three edges.  This is also the
fallback for degenerate (zero-measure) elements, for which it is the
closest point on the degenerate subspace spanned by the vertices. -/
def boundaryProjection (T : Tri2) (x : ℚ × ℚ) : ℚ × ℚ :=
  pickCloser T x
    (pickCloser T x (edgeCandidate T x (0, 1)) (edgeCandidate T x (1, 2)))
    (edgeCandidate T x (2, 0))

/-- The result of a closest point query: either the point lies inside the
element, or the closest point on the element is returned (both as
reference coordinates), mirroring the `ClosestPoint` enum of
crate::element. -/
inductive ClosestPointResult where
  | InElement (xi : ℚ × ℚ)
  | ClosestPoint (xi : ℚ × ℚ)

/-- The reference coordinate carried by a closest point result
(`ClosestPoint::point` in the source). -/
def ClosestPointResult.point : ClosestPointResult → ℚ × ℚ
  | .InElement xi => xi
  | .ClosestPoint xi => xi

/-- Modelled from the spec: `closest_point` for the linear triangle
element.  The squared physical distance is minimized over the reference
domain: for a non-degenerate element the affine map is inverted exactly
(by Cramer's rule, the barycentric coordinates are ratios of signed
areas); if the unconstrained optimum lies inside the reference domain the
query reports `InElement`, otherwise the optimum is clamped to the domain
boundary.  For a degenerate element (singular map) the projection falls
back to the closest point on the degenerate subspace. -/
def closest_point (T : Tri2) (x : ℚ × ℚ) : ClosestPointResult :=
  if cross2 (psub T.a1 T.a0) (psub T.a2 T.a0) = 0 then
    ClosestPointResult.ClosestPoint (boundaryProjection T x)
  else if 0 ≤ cross2 (psub x T.a0) (psub T.a2 T.a0) /
        cross2 (psub T.a1 T.a0) (psub T.a2 T.a0) ∧
      0 ≤ cross2 (psub T.a1 T.a0) (psub x T.a0) /
        cross2 (psub T.a1 T.a0) (psub T.a2 T.a0) ∧
      cross2 (psub x T.a0) (psub T.a2 T.a0) /
          cross2 (psub T.a1 T.a0) (psub T.a2 T.a0) +
        cross2 (psub T.a1 T.a0) (psub x T.a0) /
          cross2 (psub T.a1 T.a0) (psub T.a2 T.a0) ≤ 1 then
    ClosestPointResult.InElement
      (2 * (cross2 (psub x T.a0) (psub T.a2 T.a0) /
          cross2 (psub T.a1 T.a0) (psub T.a2 T.a0)) - 1,
        2 * (cross2 (psub T.a1 T.a0) (psub x T.a0) /
          cross2 (psub T.a1 T.a0) (psub T.a2 T.a0)) - 1)
  else ClosestPointResult.ClosestPoint (boundaryProjection T x)

/-- Modelled from the spec: the squared diameter of an affine triangle
element — the maximum over vertex pairs of the squared pairwise distance
(for affine elements the vertex-pair maximum is the exact diameter). -/
def sqDiameterTri (T : Tri2) : ℚ :=
  max (sqDist2 T.a0 T.a1) (max (sqDist2 T.a1 T.a2) (sqDist2 T.a0 T.a2))



/-! ## Reference element bases (spec models)

The per-shape basis polynomial code (crate::element) is not among the
sampled sources.  Modelled from the spec: each reference element shape of
the spec (segment, triangle 3/6, quadrilateral 4/9, tetrahedron 4/10/20,
hexahedron 8/20/27) is a list of nodes, each node carrying its reference
coordinate together with its closed-form Lagrange basis polynomial: the
linear/bilinear/trilinear and quadratic tensor-product Lagrange families,
barycentric Lagrange polynomials of degree up to three on simplices, and
the serendipity family for the 20-node hexahedron. -/

/-- A reference element shape: the reference-domain dimension and the
list of nodes, each with its reference coordinate and basis function. -/
structure RefElement where
  dim : Nat
  nodes : List ((Fin dim → ℚ) × ((Fin dim → ℚ) → ℚ))

/-- The numerical tolerance `1e-12` of the Lagrange-property tests. -/
def lagrangeTol : ℚ := 1 / 10 ^ 12

/-- The Lagrange (Kronecker delta) property for a reference element:
basis function `i` evaluated at the reference coordinate of node `j`
equals `1` if `i = j` and `0` otherwise, within `lagrangeTol`. -/
def lagrangeProperty (E : RefElement) : Prop :=
  ∀ i j : Fin E.nodes.length,
    |(E.nodes.get i).2 (E.nodes.get j).1 - (if i = j then 1 else 0)| ≤
      lagrangeTol

/-- The linear 1D Lagrange polynomial attached to endpoint `c ∈ {-1, 1}`
of the reference interval. -/
def lagL (c x : ℚ) : ℚ := (1 + c * x) / 2

/-- The quadratic 1D Lagrange polynomial attached to node
`c ∈ {-1, 0, 1}` of the reference interval. -/
def lagQ (c x : ℚ) : ℚ := c * x * (1 + c * x) / 2 + (1 - c ^ 2) * (1 - x ^ 2)

/-- The 2-node segment element. -/
def segment2Nodes : List ((Fin 1 → ℚ) × ((Fin 1 → ℚ) → ℚ)) :=
 ([-1, 1] : List ℚ).map fun c => (![c], fun p => lagL c (p 0))

/-- The segment2 reference element. -/
def segment2Element : RefElement := ⟨1, segment2Nodes⟩

/-- The barycentric coordinates of the reference triangle with corners
(-1,-1), (1,-1), (-1,1). -/
def triLam : Fin 3 → (Fin 2 → ℚ) → ℚ
  | 0 => fun p => -(p 0 + p 1) / 2
  | 1 => fun p => (1 + p 0) / 2
  | 2 => fun p => (1 + p 1) / 2

/-- The 3-node (linear) triangle element. -/
def tri3Nodes : List ((Fin 2 → ℚ) × ((Fin 2 → ℚ) → ℚ)) :=
 [(![-1, -1], triLam 0), (![1, -1], triLam 1), (![-1, 1], triLam 2)]

/-- The tri3 reference element. -/
def tri3Element : RefElement := ⟨2, tri3Nodes⟩

/-- The 6-node (quadratic) triangle element: corner nodes and edge
midpoints. -/
def tri6Nodes : List ((Fin 2 → ℚ) × ((Fin 2 → ℚ) → ℚ)) :=
    [(![-1, -1], fun p => triLam 0 p * (2 * triLam 0 p - 1)),
     (![1, -1], fun p => triLam 1 p * (2 * triLam 1 p - 1)),
     (![-1, 1], fun p => triLam 2 p * (2 * triLam 2 p - 1)),
     (![0, -1], fun p => 4 * triLam 0 p * triLam 1 p),
     (![0, 0], fun p => 4 * triLam 1 p * triLam 2 p),
     (![-1, 0], fun p => 4 * triLam 0 p * triLam 2 p)]

/-- The tri6 reference element. -/
def tri6Element : RefElement := ⟨2, tri6Nodes⟩

/-- The 4-node (bilinear) quadrilateral element. -/
def quad4Nodes : List ((Fin 2 → ℚ) × ((Fin 2 → ℚ) → ℚ)) :=
 ([-1, 1] : List ℚ).flatMap fun cy =>
    ([-1, 1] : List ℚ).map fun cx =>
      (![cx, cy], fun p => lagL cx (p 0) * lagL cy (p 1))

/-- The quad4 reference element. -/
def quad4Element : RefElement := ⟨2, quad4Nodes⟩

/-- The 9-node (biquadratic) quadrilateral element. -/
def quad9Nodes : List ((Fin 2 → ℚ) × ((Fin 2 → ℚ) → ℚ)) :=
 ([-1, 0, 1] : List ℚ).flatMap fun cy =>
    ([-1, 0, 1] : List ℚ).map fun cx =>
      (![cx, cy], fun p => lagQ cx (p 0) * lagQ cy (p 1))

/-- The quad9 reference element. -/
def quad9Element : RefElement := ⟨2, quad9Nodes⟩

/-- The barycentric coordinates of the reference tetrahedron with corners
(-1,-1,-1), (1,-1,-1), (-1,1,-1), (-1,-1,1). -/
def tetLam : Fin 4 → (Fin 3 → ℚ) → ℚ
  | 0 => fun p => -(1 + p 0 + p 1 + p 2) / 2
  | 1 => fun p => (1 + p 0) / 2
  | 2 => fun p => (1 + p 1) / 2
  | 3 => fun p => (1 + p 2) / 2

/-- The corners of the reference tetrahedron. -/
def tetVert : Fin 4 → (Fin 3 → ℚ)
  | 0 => ![-1, -1, -1]
  | 1 => ![1, -1, -1]
  | 2 => ![-1, 1, -1]
  | 3 => ![-1, -1, 1]

/-- The 4-node (linear) tetrahedron element. -/
def tet4Nodes : List ((Fin 3 → ℚ) × ((Fin 3 → ℚ) → ℚ)) :=
 ([0, 1, 2, 3] : List (Fin 4)).map fun i => (tetVert i, tetLam i)

/-- The tet4 reference element. -/
def tet4Element : RefElement := ⟨3, tet4Nodes⟩

/-- The six edges of the tetrahedron, as unordered vertex pairs. -/
def tetEdges : List (Fin 4 × Fin 4) :=
  [(0, 1), (0, 2), (0, 3), (1, 2), (1, 3), (2, 3)]

/-- The 10-node (quadratic) tetrahedron element: corner nodes and edge
midpoints. -/
def tet10Nodes : List ((Fin 3 → ℚ) × ((Fin 3 → ℚ) → ℚ)) :=
    (([0, 1, 2, 3] : List (Fin 4)).map fun i =>
      (tetVert i, fun p => tetLam i p * (2 * tetLam i p - 1))) ++
    (tetEdges.map fun e =>
      (fun k => (tetVert e.1 k + tetVert e.2 k) / 2,
        fun p => 4 * tetLam e.1 p * tetLam e.2 p))

/-- The tet10 reference element. -/
def tet10Element : RefElement := ⟨3, tet10Nodes⟩

/-- The twelve ordered edge endpoints of the tetrahedron: each edge
carries two interior nodes, one closer to each endpoint. -/
def tetOrdEdges : List (Fin 4 × Fin 4) :=
  [(0, 1), (1, 0), (0, 2), (2, 0), (0, 3), (3, 0),
   (1, 2), (2, 1), (1, 3), (3, 1), (2, 3), (3, 2)]

/-- The four faces of the tetrahedron, as vertex triples. -/
def tetFaces : List (Fin 4 × Fin 4 × Fin 4) :=
  [(0, 1, 2), (0, 1, 3), (0, 2, 3), (1, 2, 3)]

/-- The 20-node (cubic) tetrahedron element: corner nodes, two nodes per
edge at the third points, and face centroids. -/
def tet20Nodes : List ((Fin 3 → ℚ) × ((Fin 3 → ℚ) → ℚ)) :=
    (([0, 1, 2, 3] : List (Fin 4)).map fun i =>
      (tetVert i, fun p =>
        tetLam i p * (3 * tetLam i p - 1) * (3 * tetLam i p - 2) / 2)) ++
    (tetOrdEdges.map fun e =>
      (fun k => (2 * tetVert e.1 k + tetVert e.2 k) / 3,
        fun p => 9 / 2 * tetLam e.1 p * tetLam e.2 p *
          (3 * tetLam e.1 p - 1))) ++
    (tetFaces.map fun f =>
      (fun k => (tetVert f.1 k + tetVert f.2.1 k + tetVert f.2.2 k) / 3,
        fun p => 27 * tetLam f.1 p * tetLam f.2.1 p * tetLam f.2.2 p))

/-- The tet20 reference element. -/
def tet20Element : RefElement := ⟨3, tet20Nodes⟩

/-- The 8-node (trilinear) hexahedron element. -/
def hex8Nodes : List ((Fin 3 → ℚ) × ((Fin 3 → ℚ) → ℚ)) :=
 ([-1, 1] : List ℚ).flatMap fun cz =>
    ([-1, 1] : List ℚ).flatMap fun cy =>
      ([-1, 1] : List ℚ).map fun cx =>
        (![cx, cy, cz], fun p => lagL cx (p 0) * lagL cy (p 1) * lagL cz (p 2))

/-- The hex8 reference element. -/
def hex8Element : RefElement := ⟨3, hex8Nodes⟩

/-- The 20-node (serendipity) hexahedron element: corner nodes and edge
midpoints. -/
def hex20Nodes : List ((Fin 3 → ℚ) × ((Fin 3 → ℚ) → ℚ)) :=
    (([-1, 1] : List ℚ).flatMap fun cz =>
      ([-1, 1] : List ℚ).flatMap fun cy =>
        ([-1, 1] : List ℚ).map fun cx =>
          (![cx, cy, cz], fun p =>
            (1 + cx * p 0) * (1 + cy * p 1) * (1 + cz * p 2) *
              (cx * p 0 + cy * p 1 + cz * p 2 - 2) / 8)) ++
    (([-1, 1] : List ℚ).flatMap fun cz =>
      ([-1, 1] : List ℚ).map fun cy =>
        (![0, cy, cz], fun p =>
          (1 - p 0 ^ 2) * (1 + cy * p 1) * (1 + cz * p 2) / 4)) ++
    (([-1, 1] : List ℚ).flatMap fun cz =>
      ([-1, 1] : List ℚ).map fun cx =>
        (![cx, 0, cz], fun p =>
          (1 + cx * p 0) * (1 - p 1 ^ 2) * (1 + cz * p 2) / 4)) ++
    (([-1, 1] : List ℚ).flatMap fun cy =>
      ([-1, 1] : List ℚ).map fun cx =>
        (![cx, cy, 0], fun p =>
          (1 + cx * p 0) * (1 + cy * p 1) * (1 - p 2 ^ 2) / 4))

/-- The hex20 reference element. -/
def hex20Element : RefElement := ⟨3, hex20Nodes⟩

/-- The 27-node (triquadratic) hexahedron element. -/
def hex27Nodes : List ((Fin 3 → ℚ) × ((Fin 3 → ℚ) → ℚ)) :=
 ([-1, 0, 1] : List ℚ).flatMap fun cz =>
    ([-1, 0, 1] : List ℚ).flatMap fun cy =>
      ([-1, 0, 1] : List ℚ).map fun cx =>
        (![cx, cy, cz], fun p => lagQ cx (p 0) * lagQ cy (p 1) * lagQ cz (p 2))

/-- The hex27 reference element. -/
def hex27Element : RefElement := ⟨3, hex27Nodes⟩

/-- All modelled reference element shapes of the spec. -/
def refElements : List RefElement :=
  [segment2Element, tri3Element, tri6Element, quad4Element, quad9Element,
    tet4Element, tet10Element, tet20Element, hex8Element, hex20Element,
    hex27Element]

/-- The 2 by 2 identity matrix, as a list of rows. -/
def idLit2 : List (List ℚ) :=
  [
    [1, 0],
    [0, 1]]

/-- The 3 by 3 identity matrix, as a list of rows. -/
def idLit3 : List (List ℚ) :=
  [
    [1, 0, 0],
    [0, 1, 0],
    [0, 0, 1]]

/-- The 4 by 4 identity matrix, as a list of rows. -/
def idLit4 : List (List ℚ) :=
  [
    [1, 0, 0, 0],
    [0, 1, 0, 0],
    [0, 0, 1, 0],
    [0, 0, 0, 1]]

/-- The 6 by 6 identity matrix, as a list of rows. -/
def idLit6 : List (List ℚ) :=
  [
    [1, 0, 0, 0, 0, 0],
    [0, 1, 0, 0, 0, 0],
    [0, 0, 1, 0, 0, 0],
    [0, 0, 0, 1, 0, 0],
    [0, 0, 0, 0, 1, 0],
    [0, 0, 0, 0, 0, 1]]

/-- The 8 by 8 identity matrix, as a list of rows. -/
def idLit8 : List (List ℚ) :=
  [
    [1, 0, 0, 0, 0, 0, 0, 0],
    [0, 1, 0, 0, 0, 0, 0, 0],
    [0, 0, 1, 0, 0, 0, 0, 0],
    [0, 0, 0, 1, 0, 0, 0, 0],
    [0, 0, 0, 0, 1, 0, 0, 0],
    [0, 0, 0, 0, 0, 1, 0, 0],
    [0, 0, 0, 0, 0, 0, 1, 0],
    [0, 0, 0, 0, 0, 0, 0, 1]]

/-- The 9 by 9 identity matrix, as a list of rows. -/
def idLit9 : List (List ℚ) :=
  [
    [1, 0, 0, 0, 0, 0, 0, 0, 0],
    [0, 1, 0, 0, 0, 0, 0, 0, 0],
    [0, 0, 1, 0, 0, 0, 0, 0, 0],
    [0, 0, 0, 1, 0, 0, 0, 0, 0],
    [0, 0, 0, 0, 1, 0, 0, 0, 0],
    [0, 0, 0, 0, 0, 1, 0, 0, 0],
    [0, 0, 0, 0, 0, 0, 1, 0, 0],
    [0, 0, 0, 0, 0, 0, 0, 1, 0],
    [0, 0, 0, 0, 0, 0, 0, 0, 1]]

/-- The 10 by 10 identity matrix, as a list of rows. -/
def idLit10 : List (List ℚ) :=
  [
    [1, 0, 0, 0, 0, 0, 0, 0, 0, 0],
    [0, 1, 0, 0, 0, 0, 0, 0, 0, 0],
    [0, 0, 1, 0, 0, 0, 0, 0, 0, 0],
    [0, 0, 0, 1, 0, 0, 0, 0, 0, 0],
    [0, 0, 0, 0, 1, 0, 0, 0, 0, 0],
    [0, 0, 0, 0, 0, 1, 0, 0, 0, 0],
    [0, 0, 0, 0, 0, 0, 1, 0, 0, 0],
    [0, 0, 0, 0, 0, 0, 0, 1, 0, 0],
    [0, 0, 0, 0, 0, 0, 0, 0, 1, 0],
    [0, 0, 0, 0, 0, 0, 0, 0, 0, 1]]

/-- The 20 by 20 identity matrix, as a list of rows. -/
def idLit20 : List (List ℚ) :=
  [
    [1, 0, 0, 0, 0, 0, 0, 0, 0, 0, 0, 0, 0, 0, 0, 0, 0, 0, 0, 0],
    [0, 1, 0, 0, 0, 0, 0, 0, 0, 0, 0, 0, 0, 0, 0, 0, 0, 0, 0, 0],
    [0, 0, 1, 0, 0, 0, 0, 0, 0, 0, 0, 0, 0, 0, 0, 0, 0, 0, 0, 0],
    [0, 0, 0, 1, 0, 0, 0, 0, 0, 0, 0, 0, 0, 0, 0, 0, 0, 0, 0, 0],
    [0, 0, 0, 0, 1, 0, 0, 0, 0, 0, 0, 0, 0, 0, 0, 0, 0, 0, 0, 0],
    [0, 0, 0, 0, 0, 1, 0, 0, 0, 0, 0, 0, 0, 0, 0, 0, 0, 0, 0, 0],
    [0, 0, 0, 0, 0, 0, 1, 0, 0, 0, 0, 0, 0, 0, 0, 0, 0, 0, 0, 0],
    [0, 0, 0, 0, 0, 0, 0, 1, 0, 0, 0, 0, 0, 0, 0, 0, 0, 0, 0, 0],
    [0, 0, 0, 0, 0, 0, 0, 0, 1, 0, 0, 0, 0, 0, 0, 0, 0, 0, 0, 0],
    [0, 0, 0, 0, 0, 0, 0, 0, 0, 1, 0, 0, 0, 0, 0, 0, 0, 0, 0, 0],
    [0, 0, 0, 0, 0, 0, 0, 0, 0, 0, 1, 0, 0, 0, 0, 0, 0, 0, 0, 0],
    [0, 0, 0, 0, 0, 0, 0, 0, 0, 0, 0, 1, 0, 0, 0, 0, 0, 0, 0, 0],
    [0, 0, 0, 0, 0, 0, 0, 0, 0, 0, 0, 0, 1, 0, 0, 0, 0, 0, 0, 0],
    [0, 0, 0, 0, 0, 0, 0, 0, 0, 0, 0, 0, 0, 1, 0, 0, 0, 0, 0, 0],
    [0, 0, 0, 0, 0, 0, 0, 0, 0, 0, 0, 0, 0, 0, 1, 0, 0, 0, 0, 0],
    [0, 0, 0, 0, 0, 0, 0, 0, 0, 0, 0, 0, 0, 0, 0, 1, 0, 0, 0, 0],
    [0, 0, 0, 0, 0, 0, 0, 0, 0, 0, 0, 0, 0, 0, 0, 0, 1, 0, 0, 0],
    [0, 0, 0, 0, 0, 0, 0, 0, 0, 0, 0, 0, 0, 0, 0, 0, 0, 1, 0, 0],
    [0, 0, 0, 0, 0, 0, 0, 0, 0, 0, 0, 0, 0, 0, 0, 0, 0, 0, 1, 0],
    [0, 0, 0, 0, 0, 0, 0, 0, 0, 0, 0, 0, 0, 0, 0, 0, 0, 0, 0, 1]]

/-- The 27 by 27 identity matrix, as a list of rows. -/
def idLit27 : List (List ℚ) :=
  [
    [1, 0, 0, 0, 0, 0, 0, 0, 0, 0, 0, 0, 0, 0, 0, 0, 0, 0, 0, 0, 0, 0, 0, 0, 0, 0, 0],
    [0, 1, 0, 0, 0, 0, 0, 0, 0, 0, 0, 0, 0, 0, 0, 0, 0, 0, 0, 0, 0, 0, 0, 0, 0, 0, 0],
    [0, 0, 1, 0, 0, 0, 0, 0, 0, 0, 0, 0, 0, 0, 0, 0, 0, 0, 0, 0, 0, 0, 0, 0, 0, 0, 0],
    [0, 0, 0, 1, 0, 0, 0, 0, 0, 0, 0, 0, 0, 0, 0, 0, 0, 0, 0, 0, 0, 0, 0, 0, 0, 0, 0],
    [0, 0, 0, 0, 1, 0, 0, 0, 0, 0, 0, 0, 0, 0, 0, 0, 0, 0, 0, 0, 0, 0, 0, 0, 0, 0, 0],
    [0, 0, 0, 0, 0, 1, 0, 0, 0, 0, 0, 0, 0, 0, 0, 0, 0, 0, 0, 0, 0, 0, 0, 0, 0, 0, 0],
    [0, 0, 0, 0, 0, 0, 1, 0, 0, 0, 0, 0, 0, 0, 0, 0, 0, 0, 0, 0, 0, 0, 0, 0, 0, 0, 0],
    [0, 0, 0, 0, 0, 0, 0, 1, 0, 0, 0, 0, 0, 0, 0, 0, 0, 0, 0, 0, 0, 0, 0, 0, 0, 0, 0],
    [0, 0, 0, 0, 0, 0, 0, 0, 1, 0, 0, 0, 0, 0, 0, 0, 0, 0, 0, 0, 0, 0, 0, 0, 0, 0, 0],
    [0, 0, 0, 0, 0, 0, 0, 0, 0, 1, 0, 0, 0, 0, 0, 0, 0, 0, 0, 0, 0, 0, 0, 0, 0, 0, 0],
    [0, 0, 0, 0, 0, 0, 0, 0, 0, 0, 1, 0, 0, 0, 0, 0, 0, 0, 0, 0, 0, 0, 0, 0, 0, 0, 0],
    [0, 0, 0, 0, 0, 0, 0, 0, 0, 0, 0, 1, 0, 0, 0, 0, 0, 0, 0, 0, 0, 0, 0, 0, 0, 0, 0],
    [0, 0, 0, 0, 0, 0, 0, 0, 0, 0, 0, 0, 1, 0, 0, 0, 0, 0, 0, 0, 0, 0, 0, 0, 0, 0, 0],
    [0, 0, 0, 0, 0, 0, 0, 0, 0, 0, 0, 0, 0, 1, 0, 0, 0, 0, 0, 0, 0, 0, 0, 0, 0, 0, 0],
    [0, 0, 0, 0, 0, 0, 0, 0, 0, 0, 0, 0, 0, 0, 1, 0, 0, 0, 0, 0, 0, 0, 0, 0, 0, 0, 0],
    [0, 0, 0, 0, 0, 0, 0, 0, 0, 0, 0, 0, 0, 0, 0, 1, 0, 0, 0, 0, 0, 0, 0, 0, 0, 0, 0],
    [0, 0, 0, 0, 0, 0, 0, 0, 0, 0, 0, 0, 0, 0, 0, 0, 1, 0, 0, 0, 0, 0, 0, 0, 0, 0, 0],
    [0, 0, 0, 0, 0, 0, 0, 0, 0, 0, 0, 0, 0, 0, 0, 0, 0, 1, 0, 0, 0, 0, 0, 0, 0, 0, 0],
    [0, 0, 0, 0, 0, 0, 0, 0, 0, 0, 0, 0, 0, 0, 0, 0, 0, 0, 1, 0, 0, 0, 0, 0, 0, 0, 0],
    [0, 0, 0, 0, 0, 0, 0, 0, 0, 0, 0, 0, 0, 0, 0, 0, 0, 0, 0, 1, 0, 0, 0, 0, 0, 0, 0],
    [0, 0, 0, 0, 0, 0, 0, 0, 0, 0, 0, 0, 0, 0, 0, 0, 0, 0, 0, 0, 1, 0, 0, 0, 0, 0, 0],
    [0, 0, 0, 0, 0, 0, 0, 0, 0, 0, 0, 0, 0, 0, 0, 0, 0, 0, 0, 0, 0, 1, 0, 0, 0, 0, 0],
    [0, 0, 0, 0, 0, 0, 0, 0, 0, 0, 0, 0, 0, 0, 0, 0, 0, 0, 0, 0, 0, 0, 1, 0, 0, 0, 0],
    [0, 0, 0, 0, 0, 0, 0, 0, 0, 0, 0, 0, 0, 0, 0, 0, 0, 0, 0, 0, 0, 0, 0, 1, 0, 0, 0],
    [0, 0, 0, 0, 0, 0, 0, 0, 0, 0, 0, 0, 0, 0, 0, 0, 0, 0, 0, 0, 0, 0, 0, 0, 1, 0, 0],
    [0, 0, 0, 0, 0, 0, 0, 0, 0, 0, 0, 0, 0, 0, 0, 0, 0, 0, 0, 0, 0, 0, 0, 0, 0, 1, 0],
    [0, 0, 0, 0, 0, 0, 0, 0, 0, 0, 0, 0, 0, 0, 0, 0, 0, 0, 0, 0, 0, 0, 0, 0, 0, 0, 1]]

section ContractionLemmas

variable {G P : Type} (d s : Nat)
variable (contract : G → P → (Fin d → ℚ) → (Fin d → ℚ) → Nat → Nat → ℚ)
variable (gradient : G) (parameters : P) (alpha : ℚ) (a b : List ℚ)

theorem foldl_accumBlock_entry (hs : 0 < s) (L : List (Nat × Nat)) (out : DMat)
    (r c : Nat) :
    (L.foldl (accumBlock d s contract gradient parameters alpha a b) out).entry r c =
      out.entry r c + (L.count (r / s, c / s) : ℚ) *
        (contract gradient parameters (stackedBlock d a (r / s)) (stackedBlock d b (c / s))
          (r % s) (c % s) * alpha) := by
  induction L generalizing out with
  | nil => simp
  | cons IJ L ih =>
    rw [List.foldl_cons, ih, List.count_cons]
    by_cases h : IJ = (r / s, c / s)
    · subst h
      have hr := Nat.div_add_mod r s
      have hc := Nat.div_add_mod c s
      have hrm : r % s < s := Nat.mod_lt _ hs
      have hcm : c % s < s := Nat.mod_lt _ hs
      have hcond : s * (r / s) ≤ r ∧ r < s * (r / s) + s ∧
          s * (c / s) ≤ c ∧ c < s * (c / s) + s := by omega
      have h1 : r - s * (r / s) = r % s := by omega
      have h2 : c - s * (c / s) = c % s := by omega
      simp only [accumBlock, hcond, and_self, if_true, h1, h2, beq_self_eq_true]
      push_cast
      ring
    · have hcond : ¬(s * IJ.1 ≤ r ∧ r < s * IJ.1 + s ∧
          s * IJ.2 ≤ c ∧ c < s * IJ.2 + s) := by
        rintro ⟨h1, h2, h3, h4⟩
        apply h
        have hI : r / s = IJ.1 := by
          apply Nat.div_eq_of_lt_le
          · rwa [Nat.mul_comm]
          · rw [Nat.add_mul, Nat.one_mul, Nat.mul_comm IJ.1 s]; exact h2
        have hJ : c / s = IJ.2 := by
          apply Nat.div_eq_of_lt_le
          · rwa [Nat.mul_comm]
          · rw [Nat.add_mul, Nat.one_mul, Nat.mul_comm IJ.2 s]; exact h4
        cases IJ
        simp_all
      have hne : (IJ == (r / s, c / s)) = false :=
        beq_eq_false_iff_ne.mpr h
      simp [accumBlock, hcond, hne]

theorem contractionPairs_succ (M N : Nat) :
    contractionPairs M (N + 1) =
      contractionPairs M N ++ (List.range M).map (fun I => (I, N)) := by
  unfold contractionPairs
  rw [List.range_succ, List.flatMap_append]
  simp

theorem count_pair_map_range (M N I J : Nat) :
    ((List.range M).map (fun x => (x, N))).count (I, J) =
      if I < M ∧ J = N then 1 else 0 := by
  induction M with
  | zero => simp
  | succ M ih =>
    rw [List.range_succ, List.map_append, List.count_append, ih]
    simp only [List.map_cons, List.map_nil, List.count_singleton]
    have hbeq : (((M, N) : Nat × Nat) == (I, J)) = decide (I = M ∧ J = N) := by
      by_cases hIJ : I = M ∧ J = N
      · obtain ⟨rfl, rfl⟩ := hIJ
        simp
      · have hne : ¬((M, N) : Nat × Nat) = (I, J) := by
          simp only [Prod.mk.injEq]
          exact fun hh => hIJ ⟨hh.1.symm, hh.2.symm⟩
        simp [hne, hIJ]
    rw [hbeq]
    by_cases hIJ : I = M ∧ J = N <;> split_ifs <;> simp_all <;> omega

theorem contractionPairs_count (M N I J : Nat) :
    (contractionPairs M N).count (I, J) = if I < M ∧ J < N then 1 else 0 := by
  induction N with
  | zero => simp [contractionPairs]
  | succ N ih =>
    rw [contractionPairs_succ, List.count_append, ih, count_pair_map_range]
    split_ifs <;> omega

/-- A successful call of the default `accumulate_contractions_into` has the
four dimension preconditions satisfied, and its result is the column-major
fold over all `(I, J)` pairs. -/
theorem accumulate_eq_some_iff (out2 : DMat) (output : DMat) :
    accumulate_contractions_into d s contract output alpha gradient a b parameters =
        some out2 ↔
      d ≠ 0 ∧ a.length % d = 0 ∧ b.length % d = 0 ∧
        output.nrows = s * (a.length / d) ∧ output.ncols = s * (b.length / d) ∧
        out2 = (contractionPairs (a.length / d) (b.length / d)).foldl
          (accumBlock d s contract gradient parameters alpha a b) output := by
  unfold accumulate_contractions_into
  split_ifs with h1 h2 h3 h4 h5 <;> simp_all <;> tauto

theorem accumulate_isSome_iff (hd : 0 < d) (output : DMat) :
    (accumulate_contractions_into d s contract output alpha gradient a b
        parameters).isSome ↔
      a.length % d = 0 ∧ b.length % d = 0 ∧
        output.nrows = s * (a.length / d) ∧
        output.ncols = s * (b.length / d) := by
  rw [Option.isSome_iff_exists]
  constructor
  · rintro ⟨out2, h⟩
    rw [accumulate_eq_some_iff] at h
    exact ⟨h.2.1, h.2.2.1, h.2.2.2.1, h.2.2.2.2.1⟩
  · rintro ⟨h1, h2, h3, h4⟩
    exact ⟨_, (accumulate_eq_some_iff d s contract gradient parameters alpha a b
      _ output).mpr ⟨Nat.pos_iff_ne_zero.mp hd, h1, h2, h3, h4, rfl⟩⟩

/-- Entry-wise description of a successful call: every entry of the result
is the corresponding entry of the previous output plus the contribution
determined by `(alpha, gradient, a, b, parameters)`. -/
theorem accumulate_entry_eq (hs : 0 < s) (output out2 : DMat)
    (h : accumulate_contractions_into d s contract output alpha gradient a b
      parameters = some out2) (r c : Nat) :
    out2.entry r c = output.entry r c +
      contributionEntry d s contract gradient parameters alpha a b r c := by
  rw [accumulate_eq_some_iff] at h
  obtain ⟨hd, ha, hb, hrows, hcols, hout⟩ := h
  subst hout
  rw [foldl_accumBlock_entry d s contract gradient parameters alpha a b hs,
    contractionPairs_count]
  unfold contributionEntry
  have hdiv : ∀ (r M : Nat), r / s < M ↔ r < s * M := by
    intro r M
    rw [Nat.div_lt_iff_lt_mul hs, Nat.mul_comm]
  by_cases hrange : r < s * (a.length / d) ∧ c < s * (b.length / d)
  · have : r / s < a.length / d ∧ c / s < b.length / d := by
      rw [hdiv, hdiv]; exact hrange
    simp [hrange, this]
  · have : ¬(r / s < a.length / d ∧ c / s < b.length / d) := by
      rw [hdiv, hdiv]; exact hrange
    simp [hrange, this]

end ContractionLemmas

/-! ## Claims about the default batched contraction -/

/-- **C1**: for every elliptic contraction operator, gradient, scalar
`alpha`, parameters and stacked direction vectors `a` (length `d * M`) and
`b` (length `d * N`), a successful call of the default
`accumulate_contractions_into` adds exactly `alpha` times the single-pair
contraction `contract(gradient, a_I, b_J)` to the `(I, J)` block of size
`s × s` of the `(s * M) × (s * N)` output, for every `I < M` and `J < N`.
Since the blocks tile the output, this is equivalent to saying that the
batched result is the previous content plus the sum of the individually
scaled single-pair contractions. -/
theorem accumulate_contractions_into_block_formula {G P : Type} (d s : Nat)
    (contract : G → P → (Fin d → ℚ) → (Fin d → ℚ) → Nat → Nat → ℚ)
    (output out2 : DMat) (alpha : ℚ) (gradient : G) (a b : List ℚ)
    (parameters : P)
    (h : accumulate_contractions_into d s contract output alpha gradient a b
      parameters = some out2)
    (I J i j : Nat) (hI : I < a.length / d) (hJ : J < b.length / d)
    (hi : i < s) (hj : j < s) :
    out2.entry (s * I + i) (s * J + j) =
      output.entry (s * I + i) (s * J + j) +
        contract gradient parameters (stackedBlock d a I) (stackedBlock d b J)
          i j * alpha := by
  have hs : 0 < s := Nat.lt_of_le_of_lt (Nat.zero_le i) hi
  have he := accumulate_entry_eq d s contract gradient parameters alpha a b hs
    output out2 h (s * I + i) (s * J + j)
  rw [he]
  unfold contributionEntry
  have hdivI : (s * I + i) / s = I := by
    rw [Nat.mul_add_div hs, Nat.div_eq_of_lt hi, Nat.add_zero]
  have hmodI : (s * I + i) % s = i := by
    rw [Nat.mul_add_mod, Nat.mod_eq_of_lt hi]
  have hdivJ : (s * J + j) / s = J := by
    rw [Nat.mul_add_div hs, Nat.div_eq_of_lt hj, Nat.add_zero]
  have hmodJ : (s * J + j) % s = j := by
    rw [Nat.mul_add_mod, Nat.mod_eq_of_lt hj]
  have hrI : s * I + i < s * (a.length / d) := by
    calc s * I + i < s * I + s := by omega
    _ = s * (I + 1) := by ring
    _ ≤ s * (a.length / d) := Nat.mul_le_mul_left s hI
  have hrJ : s * J + j < s * (b.length / d) := by
    calc s * J + j < s * J + s := by omega
    _ = s * (J + 1) := by ring
    _ ≤ s * (b.length / d) := Nat.mul_le_mul_left s hJ
  rw [if_pos ⟨hrI, hrJ⟩, hdivI, hdivJ, hmodI, hmodJ]

/-- Witness for C1: with `d = 2`, `s = 1`, `alpha = 2`, `a = [1, 2]`,
`b = [3, 4]` and previous content `5`, the single output entry becomes
`5 + (1*3 + 2*4) * 2 = 27`. -/
theorem accumulate_contractions_into_block_formula_witness :
    wRes1.entry 0 0 = 27 := by
  have h : accumulate_contractions_into 2 1 dotContract (constMat 1 1 5) 2 ()
      [1, 2] [3, 4] () = some wRes1 := rfl
  have hb := accumulate_contractions_into_block_formula 2 1 dotContract
    (constMat 1 1 5) wRes1 2 () [1, 2] [3, 4] () h 0 0 0 0
    (by decide) (by decide) (by decide) (by decide)
  simp only [Nat.mul_zero, Nat.add_zero, Nat.zero_add] at hb
  rw [hb]
  norm_num [dotContract, stackedBlock, constMat]

/-- **C2**: the default `accumulate_contractions_into` completes without
faulting if and only if `len(a)` and `len(b)` are divisible by the
geometry dimension `d`, the output has `s * M` rows, and the output has
`s * N` columns; a violation of any of the four conditions makes the call
fault (an `assert_eq!` panic in the source, modelled by `none`) before any
result is produced.  `d = GeometryDim::dim()` is positive for the
nalgebra dimension types used as geometry dimensions. -/
theorem accumulate_contractions_into_fault_iff {G P : Type} (d s : Nat)
    (contract : G → P → (Fin d → ℚ) → (Fin d → ℚ) → Nat → Nat → ℚ)
    (output : DMat) (alpha : ℚ) (gradient : G) (a b : List ℚ)
    (parameters : P) (hd : 0 < d) :
    (accumulate_contractions_into d s contract output alpha gradient a b
        parameters).isSome ↔
      a.length % d = 0 ∧ b.length % d = 0 ∧
        output.nrows = s * (a.length / d) ∧
        output.ncols = s * (b.length / d) :=
  accumulate_isSome_iff d s contract gradient parameters alpha a b hd output

/-- Witness for C2: a concrete call with all four preconditions satisfied
succeeds. -/
theorem accumulate_contractions_into_fault_iff_witness :
    (accumulate_contractions_into 2 1 dotContract (constMat 1 1 5) 2 ()
        [1, 2] [3, 4] ()).isSome :=
  (accumulate_contractions_into_fault_iff 2 1 dotContract (constMat 1 1 5) 2 ()
      [1, 2] [3, 4] () (by decide)).mpr (by decide)

/-- **C5**: `accumulate_contractions_into` is a running sum, not a
replacement: a successful call adds to every entry of the previous output
content a contribution determined by
`(alpha, gradient, a, b, parameters)` alone, and a second successful call
into the same output adds both contributions on top of the original
content. -/
theorem accumulate_contractions_into_running_sum {G P G2 P2 : Type}
    (d s : Nat) (hs : 0 < s)
    (contract1 : G → P → (Fin d → ℚ) → (Fin d → ℚ) → Nat → Nat → ℚ)
    (contract2 : G2 → P2 → (Fin d → ℚ) → (Fin d → ℚ) → Nat → Nat → ℚ)
    (output out1 out2 : DMat) (alpha1 alpha2 : ℚ)
    (gradient1 : G) (gradient2 : G2) (a1 b1 a2 b2 : List ℚ)
    (parameters1 : P) (parameters2 : P2)
    (h1 : accumulate_contractions_into d s contract1 output alpha1 gradient1
      a1 b1 parameters1 = some out1)
    (h2 : accumulate_contractions_into d s contract2 out1 alpha2 gradient2
      a2 b2 parameters2 = some out2)
    (r c : Nat) :
    out1.entry r c = output.entry r c +
        contributionEntry d s contract1 gradient1 parameters1 alpha1 a1 b1 r c ∧
      out2.entry r c = output.entry r c +
        contributionEntry d s contract1 gradient1 parameters1 alpha1 a1 b1 r c +
        contributionEntry d s contract2 gradient2 parameters2 alpha2 a2 b2 r c := by
  have e1 := accumulate_entry_eq d s contract1 gradient1 parameters1 alpha1 a1 b1
    hs output out1 h1 r c
  have e2 := accumulate_entry_eq d s contract2 gradient2 parameters2 alpha2 a2 b2
    hs out1 out2 h2 r c
  exact ⟨e1, by rw [e2, e1]⟩

/-- Witness for C5: two successive concrete calls into the same output
(`alpha = 2` then `alpha = 3`, contraction value `11`, original content
`5`) yield `5 + 22 + 33 = 60`. -/
theorem accumulate_contractions_into_running_sum_witness :
    wRes2.entry 0 0 = 60 := by
  have h1 : accumulate_contractions_into 2 1 dotContract (constMat 1 1 5) 2 ()
      [1, 2] [3, 4] () = some wRes1 := rfl
  have h2 : accumulate_contractions_into 2 1 dotContract wRes1 3 ()
      [1, 2] [3, 4] () = some wRes2 := rfl
  have hr := accumulate_contractions_into_running_sum 2 1 (by decide)
    dotContract dotContract (constMat 1 1 5) wRes1 wRes2 2 3 () () [1, 2] [3, 4]
    [1, 2] [3, 4] () () h1 h2 0 0
  rw [hr.2]
  norm_num [contributionEntry, dotContract, stackedBlock, constMat]

/-- **C8**: the default batched contraction visits the stacked direction
index pairs in a fixed column-major (block-major) order: the outer loop
runs over the column block index `J`, the inner loop over the row block
index `I`, so the `k`-th visited pair is `(k % M, k / M)`.  The embedding
of `accumulate_contractions_into` is a pure function of its arguments, so
two runs on identical inputs produce identical outputs; the second
conjunct records this reproducibility. -/
theorem contraction_iteration_column_major (M N : Nat) :
    contractionPairs M N =
        (List.range (M * N)).map (fun k => (k % M, k / M)) ∧
      ∀ {G P : Type} (d s : Nat)
        (contract : G → P → (Fin d → ℚ) → (Fin d → ℚ) → Nat → Nat → ℚ)
        (output : DMat) (alpha : ℚ) (gradient : G) (a b : List ℚ)
        (parameters : P),
        accumulate_contractions_into d s contract output alpha gradient a b
            parameters =
          accumulate_contractions_into d s contract output alpha gradient a b
            parameters := by
  constructor
  · induction N with
    | zero => simp [contractionPairs]
    | succ N ih =>
      rw [contractionPairs_succ, ih, Nat.mul_succ, List.range_add,
        List.map_append, List.map_map]
      congr 1
      apply List.map_congr_left
      intro i hi
      have hiM : i < M := List.mem_range.mp hi
      have hM : 0 < M := Nat.lt_of_le_of_lt (Nat.zero_le i) hiM
      simp only [Function.comp_apply]
      rw [Nat.mul_add_mod, Nat.mod_eq_of_lt hiM,
        Nat.mul_add_div hM, Nat.div_eq_of_lt hiM, Nat.add_zero]
  · intros
    rfl

/-- **C9**: the default `accumulate_contractions_into` does not require
`a.len() == b.len()`: whenever both lengths are divisible by `d` and the
output is `(s * M) × (s * N)`, the call succeeds, even when `M ≠ N` —
although the method documentation claims it panics when
`a.len() != b.len()`, no such check exists in the code. -/
theorem accumulate_contractions_into_unequal_lengths_ok {G P : Type}
    (d s : Nat)
    (contract : G → P → (Fin d → ℚ) → (Fin d → ℚ) → Nat → Nat → ℚ)
    (output : DMat) (alpha : ℚ) (gradient : G) (a b : List ℚ)
    (parameters : P) (hd : 0 < d)
    (ha : a.length % d = 0) (hb : b.length % d = 0)
    (hrows : output.nrows = s * (a.length / d))
    (hcols : output.ncols = s * (b.length / d)) :
    (accumulate_contractions_into d s contract output alpha gradient a b
        parameters).isSome :=
  (accumulate_isSome_iff d s contract gradient parameters alpha a b hd
    output).mpr ⟨ha, hb, hrows, hcols⟩

/-- Witness for C9: a concrete call with `a.len() = 2` and `b.len() = 4`
(`M = 1 ≠ 2 = N`) succeeds. -/
theorem accumulate_contractions_into_unequal_lengths_ok_witness :
    (accumulate_contractions_into 2 1 dotContract (constMat 1 2 0) 1 ()
        [1, 2] [3, 4, 5, 6] ()).isSome :=
  accumulate_contractions_into_unequal_lengths_ok 2 1 dotContract
    (constMat 1 2 0) 1 () [1, 2] [3, 4, 5, 6] () (by decide) (by decide)
    (by decide) (by decide) (by decide)

/-! ## Claims about VTK export and quadrature lookup -/

/-- **C10**: VTK export silently degrades every 27-node hexahedron
connectivity to a 20-node quadratic hexahedron: `num_nodes` reports 20
(not 27), `cell_type` is the quadratic hexahedron, the written buffer has
length `num_nodes`, and its content is a fixed reordering of exactly the
first 20 vertex indices — the 6 face-center and 1 body-center nodes
(indices 20 to 26) are dropped. -/
theorem hex27_vtk_export_degrades_to_hex20 (c : Hex27Connectivity) :
    c.num_nodes = 20 ∧
      c.cell_type = CellType.QuadraticHexahedron ∧
      c.write_vtk_connectivity.length = c.num_nodes ∧
      c.write_vtk_connectivity.Perm
        (((List.finRange 27).take 20).map fun i => c.vertex_indices i) := by
  refine ⟨rfl, rfl, rfl, ?_⟩
  apply List.Perm.map
  decide

/-- **C7** (spec-modelled): for every table of rules for an element shape
and every requested polynomial strength, the quadrature lookup either
returns a tabulated rule of strength at or above the request, or fails
with the explicit, recoverable `StrengthNotAvailable` signal — and it
fails exactly when no rule at or above the requested strength exists. -/
theorem quadrature_lookup_strength_or_error (table : List TabulatedRule)
    (requested : Nat) :
    (∀ rule, lookupQuadratureRule table requested = Except.ok rule →
        rule ∈ table ∧ requested ≤ rule.strength) ∧
      (lookupQuadratureRule table requested = Except.error ⟨⟩ ↔
        ∀ rule ∈ table, rule.strength < requested) := by
  constructor
  · intro rule h
    unfold lookupQuadratureRule at h
    cases hf : table.find? (fun r => requested ≤ r.strength) with
    | none => rw [hf] at h; cases h
    | some r =>
      rw [hf] at h
      cases h
      refine ⟨List.mem_of_find?_eq_some hf, ?_⟩
      have := List.find?_some hf
      simpa using this
  · unfold lookupQuadratureRule
    cases hf : table.find? (fun r => requested ≤ r.strength) with
    | none =>
      simp only [true_iff]
      intro rule hrule
      have := List.find?_eq_none.mp hf rule hrule
      simp at this
      omega
    | some r =>
      simp only []
      constructor
      · intro h
        cases h
      · intro hall
        have hmem := List.mem_of_find?_eq_some hf
        have hle := List.find?_some hf
        simp at hle
        have := hall r hmem
        omega

/-- Witness for C7: looking up strength 2 in the concrete table returns
the strength-3 rule, which belongs to the table and is at or above the
request. -/
theorem quadrature_lookup_strength_or_error_witness :
    (⟨3, [(1, [0, 0]), (1, [1, 0])]⟩ : TabulatedRule) ∈ wQuadTable ∧
      2 ≤ (⟨3, [(1, [0, 0]), (1, [1, 0])]⟩ : TabulatedRule).strength :=
  (quadrature_lookup_strength_or_error wQuadTable 2).1 _ rfl

/-! ## Geometry lemmas for the triangle element -/

theorem padd_psmul_zero (p u : ℚ × ℚ) : padd p (psmul 0 u) = p := by
  rw [Prod.ext_iff]
  constructor <;> simp [padd, psmul]

theorem psub_padd_cancel (A u : ℚ × ℚ) : psub (padd A u) A = u := by
  rw [Prod.ext_iff]
  constructor <;> simp [padd, psub]

theorem dot2_smul_left (t : ℚ) (u v : ℚ × ℚ) :
    dot2 (psmul t u) v = t * dot2 u v := by
  simp [dot2, psmul]
  ring

theorem dot2_self_eq_zero (u : ℚ × ℚ) : dot2 u u = 0 ↔ u = (0, 0) := by
  constructor
  · intro h
    simp only [dot2] at h
    have h1 : u.1 * u.1 = 0 := by
      nlinarith [mul_self_nonneg u.1, mul_self_nonneg u.2]
    have h2 : u.2 * u.2 = 0 := by
      nlinarith [mul_self_nonneg u.1, mul_self_nonneg u.2]
    rw [Prod.ext_iff]
    exact ⟨mul_self_eq_zero.mp h1, mul_self_eq_zero.mp h2⟩
  · intro h
    rw [h]
    simp [dot2]

theorem sqDist2_nonneg (u v : ℚ × ℚ) : 0 ≤ sqDist2 u v := by
  simp only [sqDist2, dot2, psub]
  nlinarith [mul_self_nonneg (u.1 - v.1), mul_self_nonneg (u.2 - v.2)]

theorem sqDist2_self (u : ℚ × ℚ) : sqDist2 u u = 0 := by
  simp [sqDist2, dot2, psub]

theorem sqDist2_symm (u v : ℚ × ℚ) : sqDist2 u v = sqDist2 v u := by
  simp only [sqDist2, dot2, psub]
  ring

theorem sqDist2_eq_zero_iff (u v : ℚ × ℚ) : sqDist2 u v = 0 ↔ u = v := by
  rw [sqDist2, dot2_self_eq_zero]
  simp only [psub, Prod.ext_iff, Prod.fst, Prod.snd]
  constructor
  · rintro ⟨h1, h2⟩
    exact ⟨by linarith, by linarith⟩
  · rintro ⟨h1, h2⟩
    exact ⟨by linarith, by linarith⟩

theorem triMap_refVert (T : Tri2) (k : Fin 3) :
    triMap T (refVert k) = triVert T k := by
  fin_cases k <;>
    (rw [Prod.ext_iff]; constructor <;>
      (simp [triMap, refVert, triVert, padd, psub, psmul]; try ring))

theorem triMap_affine (T : Tri2) (p q : ℚ × ℚ) (t : ℚ) :
    triMap T (padd p (psmul t (psub q p))) =
      padd (triMap T p) (psmul t (psub (triMap T q) (triMap T p))) := by
  rw [Prod.ext_iff]
  constructor <;> (simp [triMap, padd, psub, psmul]; ring)

theorem triMap_combo (T : Tri2) (xi : ℚ × ℚ) :
    triMap T xi =
      padd (padd (psmul (-(xi.1 + xi.2) / 2) T.a0)
          (psmul ((xi.1 + 1) / 2) T.a1))
        (psmul ((xi.2 + 1) / 2) T.a2) := by
  rw [Prod.ext_iff]
  constructor <;> (simp [triMap, padd, psub, psmul]; ring)

theorem edgeCandidate_exact (T : Tri2) (e : Fin 3 × Fin 3) (x : ℚ × ℚ)
    (h : onSeg (triVert T e.1) (triVert T e.2) x) :
    triMap T (edgeCandidate T x e) = x := by
  obtain ⟨t, ht0, ht1, hx⟩ := h
  unfold edgeCandidate segClosestParam
  by_cases hden : dot2 (psub (triVert T e.2) (triVert T e.1))
      (psub (triVert T e.2) (triVert T e.1)) = 0
  · rw [if_pos hden]
    have hBA : psub (triVert T e.2) (triVert T e.1) = (0, 0) :=
      (dot2_self_eq_zero _).mp hden
    have hxA : x = triVert T e.1 := by
      rw [hx, hBA]
      rw [Prod.ext_iff]
      constructor <;> simp [padd, psmul]
    rw [padd_psmul_zero, triMap_refVert, hxA]
  · rw [if_neg hden]
    have hxA : psub x (triVert T e.1) =
        psmul t (psub (triVert T e.2) (triVert T e.1)) := by
      rw [hx]
      exact psub_padd_cancel _ _
    rw [hxA, dot2_smul_left, mul_div_assoc, div_self hden, mul_one,
      clamp01, min_eq_right ht1, max_eq_right ht0, triMap_affine,
      triMap_refVert, triMap_refVert, ← hx]

theorem boundaryProjection_min (T : Tri2) (x : ℚ × ℚ) :
    sqDist2 (triMap T (boundaryProjection T x)) x ≤
        sqDist2 (triMap T (edgeCandidate T x (0, 1))) x ∧
      sqDist2 (triMap T (boundaryProjection T x)) x ≤
        sqDist2 (triMap T (edgeCandidate T x (1, 2))) x ∧
      sqDist2 (triMap T (boundaryProjection T x)) x ≤
        sqDist2 (triMap T (edgeCandidate T x (2, 0))) x := by
  unfold boundaryProjection pickCloser
  split_ifs <;> refine ⟨?_, ?_, ?_⟩ <;> linarith

theorem collinear_decomp (e1 e2 : ℚ × ℚ) (h : cross2 e1 e2 = 0)
    (hne : ¬dot2 e1 e1 = 0) :
    e2 = psmul (dot2 e2 e1 / dot2 e1 e1) e1 := by
  simp only [cross2, dot2] at h hne ⊢
  rw [Prod.ext_iff]
  constructor
  · show e2.1 = (e2.1 * e1.1 + e2.2 * e1.2) / (e1.1 * e1.1 + e1.2 * e1.2) * e1.1
    field_simp
    linear_combination (-e1.2) * h
  · show e2.2 = (e2.1 * e1.1 + e2.2 * e1.2) / (e1.1 * e1.1 + e1.2 * e1.2) * e1.2
    field_simp
    linear_combination e1.1 * h

theorem coord_cover (s u v : ℚ) (hu0 : 0 ≤ u) (hv0 : 0 ≤ v)
    (huv : u + v ≤ 1) :
    (∃ t, 0 ≤ t ∧ t ≤ 1 ∧ u + v * s = t) ∨
      (∃ t, 0 ≤ t ∧ t ≤ 1 ∧ u + v * s = 1 + t * (s - 1)) ∨
      (∃ t, 0 ≤ t ∧ t ≤ 1 ∧ u + v * s = s + t * (0 - s)) := by
  rcases le_or_lt s 0 with hs | hs
  · right; left
    have hs1 : (0 : ℚ) < 1 - s := by linarith
    have hw1 : u + v * s ≤ 1 := by nlinarith
    have hws : s ≤ u + v * s := by nlinarith
    refine ⟨(1 - (u + v * s)) / (1 - s), ?_, ?_, ?_⟩
    · apply div_nonneg (by linarith) (le_of_lt hs1)
    · rw [div_le_one hs1]
      linarith
    · field_simp
      ring
  · rcases le_or_lt s 1 with hs1 | hs1
    · left
      exact ⟨u + v * s, by nlinarith, by nlinarith, rfl⟩
    · right; right
      have hs0 : (0 : ℚ) < s := by linarith
      have hw0 : 0 ≤ u + v * s := by nlinarith
      have hws : u + v * s ≤ s := by nlinarith
      refine ⟨(s - (u + v * s)) / s, ?_, ?_, ?_⟩
      · apply div_nonneg (by linarith) (le_of_lt hs0)
      · rw [div_le_one hs0]
        linarith
      · field_simp
        ring

theorem degenerate_on_some_edge (T : Tri2) (xi : ℚ × ℚ)
    (h1 : -1 ≤ xi.1) (h2 : -1 ≤ xi.2) (h3 : xi.1 + xi.2 ≤ 0)
    (hdet : cross2 (psub T.a1 T.a0) (psub T.a2 T.a0) = 0) :
    onSeg (triVert T 0) (triVert T 1) (triMap T xi) ∨
      onSeg (triVert T 1) (triVert T 2) (triMap T xi) ∨
      onSeg (triVert T 2) (triVert T 0) (triMap T xi) := by
  have hu0 : 0 ≤ (xi.1 + 1) / 2 := by linarith
  have hv0 : 0 ≤ (xi.2 + 1) / 2 := by linarith
  have huv : (xi.1 + 1) / 2 + (xi.2 + 1) / 2 ≤ 1 := by linarith
  by_cases he1 : dot2 (psub T.a1 T.a0) (psub T.a1 T.a0) = 0
  · -- a1 = a0: the element degenerates onto the segment from a2 to a0.
    have hBA : psub T.a1 T.a0 = (0, 0) := (dot2_self_eq_zero _).mp he1
    have h10a : T.a1.1 = T.a0.1 := by
      have := congrArg Prod.fst hBA
      simp [psub] at this
      linarith
    have h10b : T.a1.2 = T.a0.2 := by
      have := congrArg Prod.snd hBA
      simp [psub] at this
      linarith
    right; right
    refine ⟨1 - (xi.2 + 1) / 2, by linarith, by linarith, ?_⟩
    rw [Prod.ext_iff]
    constructor
    · simp [triMap, triVert, padd, psub, psmul, h10a]
      ring
    · simp [triMap, triVert, padd, psub, psmul, h10b]
      ring
  · have he2 := collinear_decomp (psub T.a1 T.a0) (psub T.a2 T.a0) hdet he1
    have hc1 : T.a2.1 - T.a0.1 =
        dot2 (psub T.a2 T.a0) (psub T.a1 T.a0) /
          dot2 (psub T.a1 T.a0) (psub T.a1 T.a0) * (T.a1.1 - T.a0.1) := by
      have := congrArg Prod.fst he2
      simpa [psub, psmul] using this
    have hc2 : T.a2.2 - T.a0.2 =
        dot2 (psub T.a2 T.a0) (psub T.a1 T.a0) /
          dot2 (psub T.a1 T.a0) (psub T.a1 T.a0) * (T.a1.2 - T.a0.2) := by
      have := congrArg Prod.snd he2
      simpa [psub, psmul] using this
    set s := dot2 (psub T.a2 T.a0) (psub T.a1 T.a0) /
      dot2 (psub T.a1 T.a0) (psub T.a1 T.a0) with hsdef
    rcases coord_cover s ((xi.1 + 1) / 2) ((xi.2 + 1) / 2) hu0 hv0 huv with
      ⟨t, ht0, ht1, ht⟩ | ⟨t, ht0, ht1, ht⟩ | ⟨t, ht0, ht1, ht⟩
    · left
      refine ⟨t, ht0, ht1, ?_⟩
      rw [Prod.ext_iff]
      constructor
      · simp only [triMap, triVert, padd, psub, psmul]
        linear_combination ((xi.2 + 1) / 2) * hc1 + (T.a1.1 - T.a0.1) * ht
      · simp only [triMap, triVert, padd, psub, psmul]
        linear_combination ((xi.2 + 1) / 2) * hc2 + (T.a1.2 - T.a0.2) * ht
    · right; left
      refine ⟨t, ht0, ht1, ?_⟩
      rw [Prod.ext_iff]
      constructor
      · simp only [triMap, triVert, padd, psub, psmul]
        linear_combination ((xi.2 + 1) / 2 - t) * hc1 + (T.a1.1 - T.a0.1) * ht
      · simp only [triMap, triVert, padd, psub, psmul]
        linear_combination ((xi.2 + 1) / 2 - t) * hc2 + (T.a1.2 - T.a0.2) * ht
    · right; right
      refine ⟨t, ht0, ht1, ?_⟩
      rw [Prod.ext_iff]
      constructor
      · simp only [triMap, triVert, padd, psub, psmul]
        linear_combination ((xi.2 + 1) / 2 - 1 + t) * hc1 + (T.a1.1 - T.a0.1) * ht
      · simp only [triMap, triVert, padd, psub, psmul]
        linear_combination ((xi.2 + 1) / 2 - 1 + t) * hc2 + (T.a1.2 - T.a0.2) * ht

/-- **C4** (spec-modelled): for every linear triangle element (degenerate
ones included) and every reference point inside the reference domain,
closest point projection is idempotent on interior points: projecting the
physical image of the reference point returns a reference coordinate whose
physical image is exactly the original physical point.  Exact equality
over ℚ implies the claimed bound `diameter * 1e-9` on the distance, since
the diameter is nonnegative. -/
theorem closest_point_interior_round_trip (T : Tri2) (xi : ℚ × ℚ)
    (hxi : inRefTri xi) :
    triMap T ((closest_point T (triMap T xi)).point) = triMap T xi := by
  obtain ⟨h1, h2, h3⟩ := hxi
  by_cases hdet : cross2 (psub T.a1 T.a0) (psub T.a2 T.a0) = 0
  · -- Degenerate element: the fallback boundary projection is exact
    -- because the physical point lies on one of the edges.
    rw [closest_point, if_pos hdet]
    show triMap T (boundaryProjection T (triMap T xi)) = triMap T xi
    have hedge := degenerate_on_some_edge T xi h1 h2 h3 hdet
    have hmin := boundaryProjection_min T (triMap T xi)
    have hnn := sqDist2_nonneg (triMap T (boundaryProjection T (triMap T xi)))
      (triMap T xi)
    have hzero : sqDist2 (triMap T (boundaryProjection T (triMap T xi)))
        (triMap T xi) = 0 := by
      rcases hedge with hE | hE | hE
      · have hc := edgeCandidate_exact T (0, 1) (triMap T xi) hE
        have h0 : sqDist2 (triMap T (edgeCandidate T (triMap T xi) (0, 1)))
            (triMap T xi) = 0 := by
          rw [hc]
          exact sqDist2_self _
        linarith [hmin.1]
      · have hc := edgeCandidate_exact T (1, 2) (triMap T xi) hE
        have h0 : sqDist2 (triMap T (edgeCandidate T (triMap T xi) (1, 2)))
            (triMap T xi) = 0 := by
          rw [hc]
          exact sqDist2_self _
        linarith [hmin.2.1]
      · have hc := edgeCandidate_exact T (2, 0) (triMap T xi) hE
        have h0 : sqDist2 (triMap T (edgeCandidate T (triMap T xi) (2, 0)))
            (triMap T xi) = 0 := by
          rw [hc]
          exact sqDist2_self _
        linarith [hmin.2.2]
    exact (sqDist2_eq_zero_iff _ _).mp hzero
  · -- Non-degenerate element: the affine map is inverted exactly and the
    -- interior test succeeds.
    have hu : cross2 (psub (triMap T xi) T.a0) (psub T.a2 T.a0) /
        cross2 (psub T.a1 T.a0) (psub T.a2 T.a0) = (xi.1 + 1) / 2 := by
      rw [div_eq_iff hdet]
      simp only [cross2, psub, triMap, padd, psmul]
      ring
    have hv : cross2 (psub T.a1 T.a0) (psub (triMap T xi) T.a0) /
        cross2 (psub T.a1 T.a0) (psub T.a2 T.a0) = (xi.2 + 1) / 2 := by
      rw [div_eq_iff hdet]
      simp only [cross2, psub, triMap, padd, psmul]
      ring
    rw [closest_point, if_neg hdet, hu, hv,
      if_pos ⟨by linarith, by linarith, by linarith⟩]
    show triMap T (2 * ((xi.1 + 1) / 2) - 1, 2 * ((xi.2 + 1) / 2) - 1) =
      triMap T xi
    have hxi2 : ((2 : ℚ) * ((xi.1 + 1) / 2) - 1, (2 : ℚ) * ((xi.2 + 1) / 2) - 1) = xi := by
      rw [Prod.ext_iff]
      constructor <;> (simp; ring)
    rw [hxi2]

/-- Witness for C4: a concrete (non-degenerate) triangle and interior
reference point. -/
theorem closest_point_interior_round_trip_witness :
    inRefTri (0, -1) ∧
      triMap ⟨(0, 0), (2, 0), (0, 2)⟩
          ((closest_point ⟨(0, 0), (2, 0), (0, 2)⟩
            (triMap ⟨(0, 0), (2, 0), (0, 2)⟩ (0, -1))).point) =
        triMap ⟨(0, 0), (2, 0), (0, 2)⟩ (0, -1) :=
  ⟨by simp [inRefTri],
    closest_point_interior_round_trip ⟨(0, 0), (2, 0), (0, 2)⟩ (0, -1)
      (by simp [inRefTri])⟩

theorem sqDist2_combo_le (p q r y : ℚ × ℚ) (l0 l1 l2 : ℚ)
    (h0 : 0 ≤ l0) (h1 : 0 ≤ l1) (h2 : 0 ≤ l2) (hsum : l0 + l1 + l2 = 1) :
    sqDist2 (padd (padd (psmul l0 p) (psmul l1 q)) (psmul l2 r)) y ≤
      max (sqDist2 p y) (max (sqDist2 q y) (sqDist2 r y)) := by
  have hp : sqDist2 p y ≤
      max (sqDist2 p y) (max (sqDist2 q y) (sqDist2 r y)) := le_max_left _ _
  have hq : sqDist2 q y ≤
      max (sqDist2 p y) (max (sqDist2 q y) (sqDist2 r y)) :=
    le_trans (le_max_left _ _) (le_max_right _ _)
  have hr2 : sqDist2 r y ≤
      max (sqDist2 p y) (max (sqDist2 q y) (sqDist2 r y)) :=
    le_trans (le_max_right _ _) (le_max_right _ _)
  have hid : l0 * sqDist2 p y + l1 * sqDist2 q y + l2 * sqDist2 r y -
      sqDist2 (padd (padd (psmul l0 p) (psmul l1 q)) (psmul l2 r)) y =
      l0 * l1 * sqDist2 p q + l1 * l2 * sqDist2 q r +
        l0 * l2 * sqDist2 p r := by
    have h0e : l0 = 1 - l1 - l2 := by linarith
    subst h0e
    simp only [sqDist2, dot2, padd, psub, psmul]
    ring
  have hprod : 0 ≤ l0 * l1 * sqDist2 p q + l1 * l2 * sqDist2 q r +
      l0 * l2 * sqDist2 p r :=
    add_nonneg (add_nonneg (mul_nonneg (mul_nonneg h0 h1) (sqDist2_nonneg p q))
      (mul_nonneg (mul_nonneg h1 h2) (sqDist2_nonneg q r)))
      (mul_nonneg (mul_nonneg h0 h2) (sqDist2_nonneg p r))
  have hsm : l0 * max (sqDist2 p y) (max (sqDist2 q y) (sqDist2 r y)) +
      l1 * max (sqDist2 p y) (max (sqDist2 q y) (sqDist2 r y)) +
      l2 * max (sqDist2 p y) (max (sqDist2 q y) (sqDist2 r y)) =
      max (sqDist2 p y) (max (sqDist2 q y) (sqDist2 r y)) := by
    linear_combination max (sqDist2 p y) (max (sqDist2 q y) (sqDist2 r y)) * hsum
  linarith [mul_le_mul_of_nonneg_left hp h0, mul_le_mul_of_nonneg_left hq h1,
    mul_le_mul_of_nonneg_left hr2 h2]

/-- **C6** (spec-modelled): the diameter of an affine triangle element —
computed from vertex pairs as the spec prescribes for affine elements — is
the maximum pairwise distance between any two points of the element: every
pair of element points is at most that far apart, and the bound is
attained by element points.  Stated with squared distances, which is
equivalent since squaring is monotone on nonnegative reals. -/
theorem diameter_max_pairwise_distance (T : Tri2) :
    (∀ xi eta, inRefTri xi → inRefTri eta →
        sqDist2 (triMap T xi) (triMap T eta) ≤ sqDiameterTri T) ∧
      ∃ xi eta, inRefTri xi ∧ inRefTri eta ∧
        sqDist2 (triMap T xi) (triMap T eta) = sqDiameterTri T := by
  have hdiam0 : 0 ≤ sqDiameterTri T :=
    le_trans (sqDist2_nonneg T.a0 T.a1) (le_max_left _ _)
  have hpair : ∀ i j : Fin 3,
      sqDist2 (triVert T i) (triVert T j) ≤ sqDiameterTri T := by
    intro i j
    fin_cases i <;> fin_cases j <;> simp only [triVert, sqDiameterTri]
    · rw [sqDist2_self]; exact hdiam0
    · exact le_max_left _ _
    · exact le_trans (le_max_right _ _) (le_max_right _ _)
    · rw [sqDist2_symm]; exact le_max_left _ _
    · rw [sqDist2_self]; exact hdiam0
    · exact le_trans (le_max_left _ _) (le_max_right _ _)
    · rw [sqDist2_symm]; exact le_trans (le_max_right _ _) (le_max_right _ _)
    · rw [sqDist2_symm]; exact le_trans (le_max_left _ _) (le_max_right _ _)
    · rw [sqDist2_self]; exact hdiam0
  constructor
  · intro xi eta hxi heta
    obtain ⟨hx1, hx2, hx3⟩ := hxi
    obtain ⟨he1, he2, he3⟩ := heta
    have hvert : ∀ i : Fin 3,
        sqDist2 (triMap T eta) (triVert T i) ≤ sqDiameterTri T := by
      intro i
      rw [triMap_combo T eta]
      refine le_trans (sqDist2_combo_le T.a0 T.a1 T.a2 (triVert T i) _ _ _
        (by linarith) (by linarith) (by linarith) (by ring)) ?_
      exact max_le (hpair 0 i) (max_le (hpair 1 i) (hpair 2 i))
    rw [triMap_combo T xi]
    refine le_trans (sqDist2_combo_le T.a0 T.a1 T.a2 (triMap T eta) _ _ _
      (by linarith) (by linarith) (by linarith) (by ring)) ?_
    refine max_le ?_ (max_le ?_ ?_)
    · rw [sqDist2_symm]; exact hvert 0
    · rw [sqDist2_symm]; exact hvert 1
    · rw [sqDist2_symm]; exact hvert 2
  · rcases max_choice (sqDist2 T.a0 T.a1)
      (max (sqDist2 T.a1 T.a2) (sqDist2 T.a0 T.a2)) with hc | hc
    · refine ⟨refVert 0, refVert 1, by simp [inRefTri, refVert],
        by simp [inRefTri, refVert], ?_⟩
      rw [triMap_refVert, triMap_refVert]
      exact hc.symm
    · rcases max_choice (sqDist2 T.a1 T.a2) (sqDist2 T.a0 T.a2) with hc2 | hc2
      · refine ⟨refVert 1, refVert 2, by simp [inRefTri, refVert],
          by simp [inRefTri, refVert], ?_⟩
        rw [triMap_refVert, triMap_refVert]
        exact (hc.trans hc2).symm
      · refine ⟨refVert 0, refVert 2, by simp [inRefTri, refVert],
          by simp [inRefTri, refVert], ?_⟩
        rw [triMap_refVert, triMap_refVert]
        exact (hc.trans hc2).symm

/-- Witness for C6: on a concrete triangle, the distance between the
physical images of two concrete reference points is bounded by the
vertex-pair diameter. -/
theorem diameter_max_pairwise_distance_witness :
    sqDist2 (triMap ⟨(0, 0), (3, 0), (0, 1)⟩ (-1, -1))
        (triMap ⟨(0, 0), (3, 0), (0, 1)⟩ (1, -1)) ≤
      sqDiameterTri ⟨(0, 0), (3, 0), (0, 1)⟩ :=
  (diameter_max_pairwise_distance ⟨(0, 0), (3, 0), (0, 1)⟩).1 (-1, -1) (1, -1)
    (by simp [inRefTri]) (by simp [inRefTri])

/-! ## The Lagrange property of the modelled reference elements -/

theorem getD_map_lt {A B : Type} (f : A → B) (l : List A) (i : Nat)
    (h : i < l.length) (d : B) :
    (l.map f).getD i d = f (l.get ⟨i, h⟩) := by
  induction l generalizing i with
  | nil => cases h
  | cons x l ih =>
    cases i with
    | zero => rfl
    | succ n => exact ih n (by simpa using h)

/-- The Lagrange property follows from the evaluation matrix (all basis
functions evaluated at all nodes) being the identity matrix. -/
theorem lagrangeProperty_of_matrix (E : RefElement) (M : List (List ℚ))
    (h : E.nodes.map (fun b => E.nodes.map fun a => b.2 a.1) = M)
    (hM : ∀ i j : Fin E.nodes.length,
      (M.getD i []).getD j 0 = if i = j then 1 else 0) :
    lagrangeProperty E := by
  intro i j
  have hrow := getD_map_lt (fun b => E.nodes.map fun a => b.2 a.1) E.nodes
    (i : Nat) i.isLt ([] : List ℚ)
  rw [h] at hrow
  have hentry := getD_map_lt
    (fun a => (E.nodes.get ⟨(i : Nat), i.isLt⟩).2 a.1) E.nodes (j : Nat)
    j.isLt (0 : ℚ)
  have hij := hM i j
  rw [hrow] at hij
  rw [hentry] at hij
  simp only [Fin.eta] at hij
  rw [hij, sub_self, abs_zero]
  norm_num [lagrangeTol]

theorem segment2_basis_matrix :
    segment2Nodes.map (fun b => segment2Nodes.map fun a => b.2 a.1) =
      idLit2 := by
  norm_num [segment2Nodes, lagL, idLit2]

set_option maxRecDepth 10000 in
theorem segment2_lagrange : lagrangeProperty segment2Element :=
  lagrangeProperty_of_matrix segment2Element idLit2 segment2_basis_matrix
    (by decide)

theorem tri3_basis_matrix :
    tri3Nodes.map (fun b => tri3Nodes.map fun a => b.2 a.1) =
      idLit3 := by
  norm_num [tri3Nodes, triLam, idLit3]

set_option maxRecDepth 10000 in
theorem tri3_lagrange : lagrangeProperty tri3Element :=
  lagrangeProperty_of_matrix tri3Element idLit3 tri3_basis_matrix
    (by decide)

theorem tri6_basis_matrix :
    tri6Nodes.map (fun b => tri6Nodes.map fun a => b.2 a.1) =
      idLit6 := by
  norm_num [tri6Nodes, triLam, idLit6]

set_option maxRecDepth 10000 in
theorem tri6_lagrange : lagrangeProperty tri6Element :=
  lagrangeProperty_of_matrix tri6Element idLit6 tri6_basis_matrix
    (by decide)

theorem quad4_basis_matrix :
    quad4Nodes.map (fun b => quad4Nodes.map fun a => b.2 a.1) =
      idLit4 := by
  norm_num [quad4Nodes, lagL, idLit4]

set_option maxRecDepth 10000 in
theorem quad4_lagrange : lagrangeProperty quad4Element :=
  lagrangeProperty_of_matrix quad4Element idLit4 quad4_basis_matrix
    (by decide)

set_option maxHeartbeats 4000000 in
theorem quad9_basis_matrix :
    quad9Nodes.map (fun b => quad9Nodes.map fun a => b.2 a.1) =
      idLit9 := by
  norm_num [quad9Nodes, lagQ, idLit9]

set_option maxRecDepth 10000 in
theorem quad9_lagrange : lagrangeProperty quad9Element :=
  lagrangeProperty_of_matrix quad9Element idLit9 quad9_basis_matrix
    (by decide)

theorem tet4_basis_matrix :
    tet4Nodes.map (fun b => tet4Nodes.map fun a => b.2 a.1) =
      idLit4 := by
  norm_num [tet4Nodes, tetLam, tetVert, idLit4]

set_option maxRecDepth 10000 in
theorem tet4_lagrange : lagrangeProperty tet4Element :=
  lagrangeProperty_of_matrix tet4Element idLit4 tet4_basis_matrix
    (by decide)

set_option maxHeartbeats 4000000 in
theorem tet10_basis_matrix :
    tet10Nodes.map (fun b => tet10Nodes.map fun a => b.2 a.1) =
      idLit10 := by
  norm_num [tet10Nodes, tetLam, tetVert, tetEdges, idLit10]

set_option maxRecDepth 10000 in
theorem tet10_lagrange : lagrangeProperty tet10Element :=
  lagrangeProperty_of_matrix tet10Element idLit10 tet10_basis_matrix
    (by decide)

set_option maxHeartbeats 4000000 in
theorem tet20_basis_matrix :
    tet20Nodes.map (fun b => tet20Nodes.map fun a => b.2 a.1) =
      idLit20 := by
  norm_num [tet20Nodes, tetLam, tetVert, tetOrdEdges, tetFaces, idLit20]

set_option maxRecDepth 10000 in
theorem tet20_lagrange : lagrangeProperty tet20Element :=
  lagrangeProperty_of_matrix tet20Element idLit20 tet20_basis_matrix
    (by decide)

theorem hex8_basis_matrix :
    hex8Nodes.map (fun b => hex8Nodes.map fun a => b.2 a.1) =
      idLit8 := by
  norm_num [hex8Nodes, lagL, idLit8]

set_option maxRecDepth 10000 in
theorem hex8_lagrange : lagrangeProperty hex8Element :=
  lagrangeProperty_of_matrix hex8Element idLit8 hex8_basis_matrix
    (by decide)

set_option maxHeartbeats 4000000 in
theorem hex20_basis_matrix :
    hex20Nodes.map (fun b => hex20Nodes.map fun a => b.2 a.1) =
      idLit20 := by
  norm_num [hex20Nodes, idLit20]

set_option maxRecDepth 10000 in
theorem hex20_lagrange : lagrangeProperty hex20Element :=
  lagrangeProperty_of_matrix hex20Element idLit20 hex20_basis_matrix
    (by decide)

set_option maxHeartbeats 4000000 in
theorem hex27_basis_matrix :
    hex27Nodes.map (fun b => hex27Nodes.map fun a => b.2 a.1) =
      idLit27 := by
  norm_num [hex27Nodes, lagQ, idLit27]

set_option maxRecDepth 10000 in
theorem hex27_lagrange : lagrangeProperty hex27Element :=
  lagrangeProperty_of_matrix hex27Element idLit27 hex27_basis_matrix
    (by decide)

/-- **C3** (spec-modelled): for every modelled reference element shape and
every pair of node indices `i`, `j`, evaluating basis function `i` at node
`j`'s reference coordinate yields `1` if `i = j` and `0` otherwise, within
the numerical tolerance `1e-12` (the equality is exact over ℚ). -/
theorem basis_lagrange_property : ∀ E ∈ refElements, lagrangeProperty E := by
  intro E hE
  simp only [refElements, List.mem_cons, List.not_mem_nil, or_false] at hE
  rcases hE with rfl | rfl | rfl | rfl | rfl | rfl | rfl | rfl | rfl | rfl | rfl
  · exact segment2_lagrange
  · exact tri3_lagrange
  · exact tri6_lagrange
  · exact quad4_lagrange
  · exact quad9_lagrange
  · exact tet4_lagrange
  · exact tet10_lagrange
  · exact tet20_lagrange
  · exact hex8_lagrange
  · exact hex20_lagrange
  · exact hex27_lagrange

/-- Witness for C3: the Lagrange property at the first modelled shape. -/
theorem basis_lagrange_property_witness : lagrangeProperty segment2Element :=
  basis_lagrange_property segment2Element (List.mem_cons_self _ _)

